import Mathlib

/-!
Shallow embedding of the interview session state machine from
`AI_Interviewer.py` (class `AIInterviewer`).  The external LLM backend is
modelled as an oracle: a function from a call index and the request content
to a result (generated text, or failure).  Every method threads a call
counter so that the number of external generation calls is observable.
-/

namespace HireGuru

/-- Result of one external generation call: the raw text, or a failure of
the external service (an exception in the source). -/
inductive GenResult where
  | ok (text : String)
  | fail
deriving DecidableEq, Repr

/-- Content of a question-generation request, mirroring the keyword
arguments of `question_chain.run` (lines 89-95 of the source). -/
structure GenRequest where
  job_position : String
  stage : String
  name : String
  chat_history : String
  resume_info : String
deriving DecidableEq, Repr

/-- One external LLM call: either a question-generation request or an
advance-decision request (with the rendered chat history and stage). -/
inductive LLMCall where
  | question (r : GenRequest)
  | advance (chat_history : String) (stage : String)
deriving DecidableEq, Repr

/-- The external generation service: given the index of the call and its
content, produce the result.  Injection of the oracle makes the opaque
backend substitutable, as the spec requires. -/
def Oracle : Type := Nat → LLMCall → GenResult

/-- Session state of `AIInterviewer`: the fields set in
`initialize_session` plus the opaque resume record (modelled by its
rendered string, since the source only ever renders it with `str`). -/
structure Session where
  candidate_name : Option String
  job_position : Option String
  interview_stage : String
  last_question : String
  memory : List (String × String)
  resume_entities : Option String
deriving DecidableEq, Repr

/-- Python truthiness of an optional string: `None` and `""` are falsy.
The source guards with `if not self.candidate_name` etc. -/
def truthy : Option String → Bool
  | none => false
  | some v => v ≠ ""

/-- `initialize_session` (lines 54-62): all fields reset to their initial
values, including the resume record. -/
def initialize_session : Session :=
  { candidate_name := none
    job_position := none
    interview_stage := "introduction"
    last_question := ""
    memory := []
    resume_entities := none }

/-- The fixed stage list of `advance_stage` (lines 102-103). -/
def stages : List String :=
  ["introduction", "general_questions", "technical_questions",
   "experience_questions", "behavioral_questions", "closing"]

/-- `advance_stage` (lines 100-108): move to the next stage unless already
at the last one. -/
def advance_stage (s : Session) : Session :=
  if stages.indexOf s.interview_stage < stages.length - 1 then
    { s with interview_stage :=
        stages.getD (stages.indexOf s.interview_stage + 1) s.interview_stage }
  else s

/-- Appending one (question, answer) exchange to the conversation memory:
the `memory.save_context` call at lines 112-115. -/
def record_exchange (s : Session) (q a : String) : Session :=
  { s with memory := s.memory ++ [(q, a)] }

/-- Rendering of the buffered conversation as role-tagged lines
(lines 74-75 and 145-146): each exchange becomes a `human:` line for the
stored input and an `ai:` line for the stored output. -/
def format_history (m : List (String × String)) : String :=
  String.intercalate "\n"
    (m.flatMap (fun e => ["human: " ++ e.1, "ai: " ++ e.2]))

/-- Python `response.strip()` (lines 119 and 122): drop leading and
trailing whitespace.  Defined structurally over the character list so that
it evaluates by reduction. -/
def pyStrip (t : String) : String :=
  String.mk
    (((t.data.dropWhile Char.isWhitespace).reverse.dropWhile
        Char.isWhitespace).reverse)

/-- Python `"YES" in advance_decision` (line 154): case-sensitive substring
containment, expressed via `splitOn`. -/
def containsYES (t : String) : Bool :=
  (t.splitOn "YES").length ≠ 1

/-- The scripted name prompt (line 79). -/
def namePrompt : String :=
  "Hello! I'm your AI interviewer today. Could you please tell me your name?"

/-- The scripted role prompt (line 82), interpolating the candidate name. -/
def rolePrompt (nm : String) : String :=
  "Nice to meet you, " ++ nm ++ "! What position are you applying for?"

/-- The scripted welcome prompt (line 86), interpolating name and role. -/
def welcomePrompt (nm jp : String) : String :=
  "Thank you, " ++ nm ++ ". Let's begin the interview for the " ++ jp ++
    " position. Could you tell me a bit about yourself and your professional background?"

/-- The generation request built by `get_next_question` (lines 70-75 and
89-95): unset fields are rendered with fixed placeholder defaults. -/
def build_request (s : Session) : GenRequest :=
  { job_position := if truthy s.job_position then s.job_position.getD "" else "the position"
    stage := s.interview_stage
    name := if truthy s.candidate_name then s.candidate_name.getD "" else "Unknown"
    chat_history := format_history s.memory
    resume_info :=
      match s.resume_entities with
      | some r => r
      | none => "No resume information available." }

/-- `get_next_question` (lines 68-98).  Returns the post-call session, the
updated call counter, and the question text (or the propagated failure of
the external service).  The introduction branches are scripted and make no
external call; every other stage sends `build_request` to the oracle. -/
def get_next_question (oracle : Oracle) (s : Session) (k : Nat) :
    Session × Nat × Except Unit String :=
  if s.interview_stage = "introduction" then
    if truthy s.candidate_name = false then
      ({ s with last_question := namePrompt }, k, Except.ok namePrompt)
    else if truthy s.job_position = false then
      let q := rolePrompt (s.candidate_name.getD "")
      ({ s with last_question := q }, k, Except.ok q)
    else
      let q := welcomePrompt (s.candidate_name.getD "") (s.job_position.getD "")
      ({ s with interview_stage := "general_questions", last_question := q },
        k, Except.ok q)
  else
    match oracle k (LLMCall.question (build_request s)) with
    | GenResult.ok t => ({ s with last_question := t }, k + 1, Except.ok t)
    | GenResult.fail => (s, k + 1, Except.error ())

/-- `process_response` (lines 110-157).  Records the exchange, handles the
introduction sub-steps, otherwise (when not at closing) issues the
advance-decision call and advances on a "YES" substring, and finally
returns the next question. -/
def process_response (oracle : Oracle) (s : Session) (k : Nat)
    (response : String) : Session × Nat × Except Unit String :=
  let s1 := record_exchange s s.last_question response
  if s1.interview_stage = "introduction" ∧ truthy s1.candidate_name = false then
    get_next_question oracle { s1 with candidate_name := some (pyStrip response) } k
  else if s1.interview_stage = "introduction" ∧ truthy s1.job_position = false then
    get_next_question oracle { s1 with job_position := some (pyStrip response) } k
  else if s1.interview_stage ≠ "closing" then
    match oracle k (LLMCall.advance (format_history s1.memory) s1.interview_stage) with
    | GenResult.ok decision =>
        let s2 := if containsYES decision then advance_stage s1 else s1
        get_next_question oracle s2 (k + 1)
    | GenResult.fail => (s1, k + 1, Except.error ())
  else
    get_next_question oracle s1 k

/-- One public operation of the core: obtaining the next question,
processing a response, directly advancing the stage, or resetting the
session. -/
inductive Op where
  | nextQ
  | procResp (response : String)
  | advance
  | reset
deriving DecidableEq, Repr

/-- One step of the public interface together with the question it emits
(`reset` emits nothing). -/
def stepOut (oracle : Oracle) (sk : Session × Nat) (op : Op) :
    (Session × Nat) × Option (Except Unit String) :=
  match op with
  | Op.nextQ =>
      let r := get_next_question oracle sk.1 sk.2
      ((r.1, r.2.1), some r.2.2)
  | Op.procResp resp =>
      let r := process_response oracle sk.1 sk.2 resp
      ((r.1, r.2.1), some r.2.2)
  | Op.advance => ((advance_stage sk.1, sk.2), none)
  | Op.reset => ((initialize_session, sk.2), none)

/-- One step of the public interface, state part only. -/
def step (oracle : Oracle) (sk : Session × Nat) (op : Op) : Session × Nat :=
  (stepOut oracle sk op).1

/-- Run a sequence of public operations. -/
def run (oracle : Oracle) (sk : Session × Nat) (ops : List Op) : Session × Nat :=
  ops.foldl (step oracle) sk

/-- Run a sequence of public operations, collecting the emitted questions
in order. -/
def runOut (oracle : Oracle) (sk : Session × Nat) :
    List Op → (Session × Nat) × List (Except Unit String)
  | [] => (sk, [])
  | op :: ops =>
      let r := stepOut oracle sk op
      let rest := runOut oracle r.1 ops
      (rest.1, r.2.toList ++ rest.2)

/-- Repeated `record_exchange` over a list of (question, answer) pairs. -/
def record_many (s : Session) (ps : List (String × String)) : Session :=
  ps.foldl (fun t p => record_exchange t p.1 p.2) s

/-- A stage string is one of the six fixed stages. -/
@[reducible] def validStage (st : String) : Prop := st ∈ stages

/-- Index of a stage in the fixed order. -/
def stageIdx (st : String) : Nat := stages.indexOf st

/-- A concrete session that has completed the introduction data capture
but is still at the Introduction stage. -/
def introDoneSession : Session :=
  { candidate_name := some "Alice", job_position := some "Engineer",
    interview_stage := "introduction", last_question := "", memory := [],
    resume_entities := none }

/-- A concrete session at the General stage. -/
def generalSession : Session :=
  { candidate_name := some "Alice", job_position := some "Engineer",
    interview_stage := "general_questions", last_question := "q0",
    memory := [(namePrompt, "Alice")], resume_entities := none }

/-- Both introduction fields hold Python-truthy (non-empty) values. -/
def introDone (s : Session) : Prop :=
  truthy s.candidate_name = true ∧ truthy s.job_position = true

/-- An oracle whose generated texts never coincide with the scripted
introduction prompts (any real generation backend satisfies this). -/
def honest (oracle : Oracle) : Prop :=
  ∀ m c t, oracle m c = GenResult.ok t →
    t ≠ namePrompt ∧ ∀ nm, t ≠ rolePrompt nm

/-- A concrete honest stub oracle. -/
def plainOracle : Oracle := fun _ _ => GenResult.ok "Tell me about a project."

/-! ### Helper lemmas -/

theorem advance_stage_closing (s : Session) (h : s.interview_stage = "closing") :
    advance_stage s = s := by
  simp [advance_stage, h, stages]

theorem record_many_memory (ps : List (String × String)) (s : Session) :
    (record_many s ps).memory = s.memory ++ ps := by
  induction ps generalizing s with
  | nil => simp [record_many]
  | cons p ps ih =>
      have h := ih (record_exchange s p.1 p.2)
      simp only [record_many, List.foldl_cons] at h ⊢
      rw [h]
      simp [record_exchange]

theorem advance_stage_from_intro (s : Session)
    (h : s.interview_stage = "introduction") :
    advance_stage s = { s with interview_stage := "general_questions" } := by
  simp only [advance_stage, h]; rfl

theorem advance_stage_from_general (s : Session)
    (h : s.interview_stage = "general_questions") :
    advance_stage s = { s with interview_stage := "technical_questions" } := by
  simp only [advance_stage, h]; rfl

theorem advance_stage_from_technical (s : Session)
    (h : s.interview_stage = "technical_questions") :
    advance_stage s = { s with interview_stage := "experience_questions" } := by
  simp only [advance_stage, h]; rfl

theorem advance_stage_from_experience (s : Session)
    (h : s.interview_stage = "experience_questions") :
    advance_stage s = { s with interview_stage := "behavioral_questions" } := by
  simp only [advance_stage, h]; rfl

theorem advance_stage_from_behavioral (s : Session)
    (h : s.interview_stage = "behavioral_questions") :
    advance_stage s = { s with interview_stage := "closing" } := by
  simp only [advance_stage, h]; rfl

theorem gnq_fields (oracle : Oracle) (s : Session) (k : Nat) :
    (get_next_question oracle s k).1.candidate_name = s.candidate_name ∧
    (get_next_question oracle s k).1.job_position = s.job_position ∧
    (get_next_question oracle s k).1.memory = s.memory ∧
    (get_next_question oracle s k).1.resume_entities = s.resume_entities := by
  unfold get_next_question
  split
  · split
    · simp
    · split <;> simp
  · cases oracle k (LLMCall.question (build_request s)) <;> simp

theorem gnq_stage_cases (oracle : Oracle) (s : Session) (k : Nat) :
    (get_next_question oracle s k).1.interview_stage = s.interview_stage ∨
    (s.interview_stage = "introduction" ∧ truthy s.candidate_name = true ∧
      truthy s.job_position = true ∧
      (get_next_question oracle s k).1.interview_stage = "general_questions") := by
  unfold get_next_question
  split
  · next hIntro =>
    split
    · left; simp
    · split
      · left; simp
      · next hName hJob =>
        right
        exact ⟨hIntro, by simpa using hName, by simpa using hJob, by simp⟩
  · cases oracle k (LLMCall.question (build_request s)) <;> (left; simp)

theorem gnq_stage_of_ne (oracle : Oracle) (s : Session) (k : Nat)
    (h : s.interview_stage ≠ "introduction") :
    (get_next_question oracle s k).1.interview_stage = s.interview_stage := by
  rcases gnq_stage_cases oracle s k with h1 | ⟨h1, _⟩
  · exact h1
  · exact absurd h1 h

theorem advance_fields (s : Session) :
    (advance_stage s).candidate_name = s.candidate_name ∧
    (advance_stage s).job_position = s.job_position ∧
    (advance_stage s).memory = s.memory ∧
    (advance_stage s).resume_entities = s.resume_entities := by
  unfold advance_stage
  split <;> simp

theorem pr_decision_step (oracle : Oracle) (s : Session) (k : Nat) (r t : String)
    (h1 : s.interview_stage ≠ "introduction")
    (h2 : s.interview_stage ≠ "closing")
    (ht : oracle k (LLMCall.advance
        (format_history (s.memory ++ [(s.last_question, r)]))
        s.interview_stage) = GenResult.ok t) :
    process_response oracle s k r =
      get_next_question oracle
        (if containsYES t then
          advance_stage (record_exchange s s.last_question r)
         else record_exchange s s.last_question r) (k + 1) := by
  simp only [process_response, record_exchange, h1, h2]
  rw [ht]
  simp [h2]

theorem advance_stage_enum (s : Session) (hv : validStage s.interview_stage) :
    (advance_stage s = s ∧ s.interview_stage = "closing") ∨
    ((advance_stage s).interview_stage ≠ "introduction" ∧
      validStage (advance_stage s).interview_stage ∧
      stageIdx (advance_stage s).interview_stage = stageIdx s.interview_stage + 1) := by
  have hmem : s.interview_stage = "introduction" ∨
      s.interview_stage = "general_questions" ∨
      s.interview_stage = "technical_questions" ∨
      s.interview_stage = "experience_questions" ∨
      s.interview_stage = "behavioral_questions" ∨
      s.interview_stage = "closing" := by
    simpa [validStage, stages] using hv
  rcases hmem with h | h | h | h | h | h
  · right
    rw [advance_stage_from_intro s h]
    refine ⟨by simp, by simp [validStage, stages], ?_⟩
    simp only [h]
    rfl
  · right
    rw [advance_stage_from_general s h]
    refine ⟨by simp, by simp [validStage, stages], ?_⟩
    simp only [h]
    rfl
  · right
    rw [advance_stage_from_technical s h]
    refine ⟨by simp, by simp [validStage, stages], ?_⟩
    simp only [h]
    rfl
  · right
    rw [advance_stage_from_experience s h]
    refine ⟨by simp, by simp [validStage, stages], ?_⟩
    simp only [h]
    rfl
  · right
    rw [advance_stage_from_behavioral s h]
    refine ⟨by simp, by simp [validStage, stages], ?_⟩
    simp only [h]
    rfl
  · left
    exact ⟨advance_stage_closing s h, h⟩

theorem gnq_bounds (oracle : Oracle) (s : Session) (k : Nat)
    (hv : validStage s.interview_stage) :
    validStage (get_next_question oracle s k).1.interview_stage ∧
    stageIdx s.interview_stage ≤
      stageIdx (get_next_question oracle s k).1.interview_stage ∧
    stageIdx (get_next_question oracle s k).1.interview_stage ≤
      stageIdx s.interview_stage + 1 := by
  rcases gnq_stage_cases oracle s k with hsame | ⟨hi, _, _, hgen⟩
  · rw [hsame]
    exact ⟨hv, Nat.le_refl _, Nat.le_succ _⟩
  · rw [hgen, hi]
    exact ⟨by simp [validStage, stages], by decide, by decide⟩

theorem pr_bounds (oracle : Oracle) (s : Session) (k : Nat) (r : String)
    (hv : validStage s.interview_stage) :
    validStage (process_response oracle s k r).1.interview_stage ∧
    stageIdx s.interview_stage ≤
      stageIdx (process_response oracle s k r).1.interview_stage ∧
    stageIdx (process_response oracle s k r).1.interview_stage ≤
      stageIdx s.interview_stage + 1 := by
  simp only [process_response, record_exchange]
  split
  · simpa using gnq_bounds oracle _ k (by simpa using hv)
  · split
    · simpa using gnq_bounds oracle _ k (by simpa using hv)
    · split
      · next hc3 =>
        split
        · next decision heq =>
          split
          · next hyes =>
            rcases advance_stage_enum
                { s with memory := s.memory ++ [(s.last_question, r)] }
                (by simpa using hv) with ⟨_, hcl⟩ | ⟨hni, hval, hidx⟩
            · exact absurd hcl hc3
            · rw [gnq_stage_of_ne _ _ _ hni]
              refine ⟨hval, ?_, ?_⟩
              · rw [hidx]
                simp
              · rw [hidx]
          · simpa using gnq_bounds oracle _ (k + 1) (by simpa using hv)
        · exact ⟨by simpa using hv, by simp, by simp⟩
      · simpa using gnq_bounds oracle _ k (by simpa using hv)

theorem ne_of_head (x y : String) (hx : x.data.head? ≠ y.data.head?) : x ≠ y :=
  fun h => hx (by rw [h])

theorem welcome_head (nm jp : String) :
    (welcomePrompt nm jp).data.head? = some 'T' := by
  simp [welcomePrompt]

theorem role_head (nm : String) :
    (rolePrompt nm).data.head? = some 'N' := by
  simp [rolePrompt]

theorem name_head : namePrompt.data.head? = some 'H' := rfl

theorem welcome_ne_namePrompt (nm jp : String) : welcomePrompt nm jp ≠ namePrompt :=
  ne_of_head _ _ (by rw [welcome_head, name_head]; decide)

theorem welcome_ne_rolePrompt (nm jp x : String) : welcomePrompt nm jp ≠ rolePrompt x :=
  ne_of_head _ _ (by rw [welcome_head, role_head]; decide)

theorem advance_stage_result_ne_intro (s : Session)
    (h : s.interview_stage ≠ "introduction") :
    (advance_stage s).interview_stage ≠ "introduction" := by
  unfold advance_stage
  split
  · next hlt =>
    have h5 : stages.indexOf s.interview_stage < 5 := by simpa [stages] using hlt
    interval_cases h : stages.indexOf s.interview_stage <;> simp [stages]
  · simpa using h

theorem introDone_gnq (oracle : Oracle) (s : Session) (k : Nat)
    (h : introDone s) : introDone (get_next_question oracle s k).1 := by
  obtain ⟨h1, h2, -, -⟩ := gnq_fields oracle s k
  exact ⟨by rw [h1]; exact h.1, by rw [h2]; exact h.2⟩

theorem introDone_advance (s : Session) (h : introDone s) :
    introDone (advance_stage s) := by
  obtain ⟨h1, h2, -, -⟩ := advance_fields s
  exact ⟨by rw [h1]; exact h.1, by rw [h2]; exact h.2⟩

theorem gnq_out_not_scripted (oracle : Oracle) (s : Session) (k : Nat)
    (hP : introDone s) (hhon : honest oracle) :
    (get_next_question oracle s k).2.2 ≠ Except.ok namePrompt ∧
    ∀ nm, (get_next_question oracle s k).2.2 ≠ Except.ok (rolePrompt nm) := by
  unfold get_next_question
  split
  · split
    · next hc => exact absurd hc (by simp [hP.1])
    · split
      · next hc => exact absurd hc (by simp [hP.2])
      · refine ⟨by simpa using welcome_ne_namePrompt _ _, fun nm => ?_⟩
        simpa using welcome_ne_rolePrompt _ _ nm
  · split
    · next t ho =>
      refine ⟨by simpa using (hhon _ _ _ ho).1, fun nm => ?_⟩
      simpa using (hhon _ _ _ ho).2 nm
    · simp

theorem pr_introDone_state (oracle : Oracle) (s : Session) (k : Nat) (r : String)
    (hP : introDone s) :
    introDone (process_response oracle s k r).1 ∧
    (s.interview_stage ≠ "introduction" →
      (process_response oracle s k r).1.interview_stage ≠ "introduction") := by
  simp only [process_response, record_exchange]
  split
  · next hc => exact absurd hc.2 (by simp [hP.1])
  · split
    · next hc => exact absurd hc.2 (by simp [hP.2])
    · split
      · split
        · next decision heq =>
          split
          · next hyes =>
            refine ⟨introDone_gnq _ _ _ (introDone_advance _ hP), fun hni => ?_⟩
            rw [gnq_stage_of_ne _ _ _
              (advance_stage_result_ne_intro _ (by simpa using hni))]
            exact advance_stage_result_ne_intro _ (by simpa using hni)
          · refine ⟨introDone_gnq _ _ _ hP, fun hni => ?_⟩
            rw [gnq_stage_of_ne _ _ _ (by simpa using hni)]
            simpa using hni
        · exact ⟨hP, fun hni => by simpa using hni⟩
      · refine ⟨introDone_gnq _ _ _ hP, fun hni => ?_⟩
        rw [gnq_stage_of_ne _ _ _ (by simpa using hni)]
        simpa using hni

theorem pr_out_not_scripted (oracle : Oracle) (s : Session) (k : Nat) (r : String)
    (hP : introDone s) (hhon : honest oracle) :
    (process_response oracle s k r).2.2 ≠ Except.ok namePrompt ∧
    ∀ nm, (process_response oracle s k r).2.2 ≠ Except.ok (rolePrompt nm) := by
  simp only [process_response, record_exchange]
  split
  · next hc => exact absurd hc.2 (by simp [hP.1])
  · split
    · next hc => exact absurd hc.2 (by simp [hP.2])
    · split
      · split
        · next decision heq =>
          split
          · exact gnq_out_not_scripted _ _ _ (introDone_advance _ hP) hhon
          · exact gnq_out_not_scripted _ _ _ hP hhon
        · simp
      · exact gnq_out_not_scripted _ _ _ hP hhon

theorem stepOut_c7 (oracle : Oracle) (sk : Session × Nat) (op : Op)
    (hop : op ≠ Op.reset) (hP : introDone sk.1) (hhon : honest oracle) :
    introDone (stepOut oracle sk op).1.1 ∧
    (sk.1.interview_stage ≠ "introduction" →
      (stepOut oracle sk op).1.1.interview_stage ≠ "introduction") ∧
    ∀ q ∈ (stepOut oracle sk op).2.toList,
      q ≠ Except.ok namePrompt ∧ ∀ nm, q ≠ Except.ok (rolePrompt nm) := by
  cases op with
  | nextQ =>
      refine ⟨introDone_gnq _ _ _ hP, fun hni => ?_, ?_⟩
      · simpa [stepOut] using
          gnq_stage_of_ne oracle sk.1 sk.2 hni ▸ hni
      · intro q hq
        simp only [stepOut, Option.toList, List.mem_singleton] at hq
        subst hq
        exact gnq_out_not_scripted oracle sk.1 sk.2 hP hhon
  | procResp r =>
      refine ⟨(pr_introDone_state oracle sk.1 sk.2 r hP).1, fun hni => ?_, ?_⟩
      · simpa [stepOut] using (pr_introDone_state oracle sk.1 sk.2 r hP).2 hni
      · intro q hq
        simp only [stepOut, Option.toList, List.mem_singleton] at hq
        subst hq
        exact pr_out_not_scripted oracle sk.1 sk.2 r hP hhon
  | advance =>
      refine ⟨introDone_advance sk.1 hP, fun hni => ?_, by simp [stepOut]⟩
      simpa [stepOut] using advance_stage_result_ne_intro sk.1 hni
  | reset => exact absurd rfl hop

/-! ### Claims -/

/-- C3: at the terminal stage Closing, `advance_stage` iterated any number
of times leaves the entire session state unchanged. -/
theorem C3_advance_idempotent_at_closing (s : Session) (n : Nat)
    (h : s.interview_stage = "closing") :
    advance_stage^[n] s = s := by
  induction n with
  | zero => rfl
  | succ m ih =>
      rw [Function.iterate_succ_apply, advance_stage_closing s h, ih]

/-- C3 witness at a concrete closing-stage session. -/
theorem C3_witness :
    advance_stage^[3]
      { candidate_name := some "Alice", job_position := some "Engineer",
        interview_stage := "closing", last_question := "q", memory := [],
        resume_entities := none } =
      { candidate_name := some "Alice", job_position := some "Engineer",
        interview_stage := "closing", last_question := "q", memory := [],
        resume_entities := none } :=
  C3_advance_idempotent_at_closing _ 3 rfl

/-- C8: a sequence of `record_exchange` calls yields a transcript whose
entries are exactly the recorded pairs appended in call order; from an
empty transcript its length equals the number of calls made. -/
theorem C8_transcript_append_only (ps : List (String × String)) :
    (∀ s : Session, (record_many s ps).memory = s.memory ++ ps) ∧
    (record_many initialize_session ps).memory = ps ∧
    (record_many initialize_session ps).memory.length = ps.length := by
  refine ⟨fun s => record_many_memory ps s, ?_, ?_⟩ <;>
    simp [record_many_memory, initialize_session]

/-- C9: after any sequence of public operations, a reset yields exactly
the state of a freshly constructed session. -/
theorem C9_reset_equals_fresh (oracle : Oracle) (s : Session) (k : Nat)
    (ops : List Op) :
    (step oracle (run oracle (s, k) ops) Op.reset).1 = initialize_session := rfl

/-- C1: at a stage that is neither Introduction nor Closing, with the
external advance-decision call returning text `t`, `process_response`
advances the stage by exactly one position in the fixed order if and only
if `t` contains the case-sensitive literal "YES" as a substring, and
leaves the stage unchanged otherwise. -/
theorem C1_advance_iff_yes_substring (t r : String) (s : Session) (k : Nat)
    (hv : validStage s.interview_stage)
    (h1 : s.interview_stage ≠ "introduction")
    (h2 : s.interview_stage ≠ "closing") :
    ((process_response (fun _ _ => GenResult.ok t) s k r).1.interview_stage =
      if containsYES t then (advance_stage s).interview_stage
      else s.interview_stage) ∧
    stageIdx (process_response (fun _ _ => GenResult.ok t) s k r).1.interview_stage =
      (if containsYES t then stageIdx s.interview_stage + 1
       else stageIdx s.interview_stage) := by
  have hmem : s.interview_stage = "general_questions" ∨
      s.interview_stage = "technical_questions" ∨
      s.interview_stage = "experience_questions" ∨
      s.interview_stage = "behavioral_questions" := by
    simp only [validStage, stages, List.mem_cons, List.not_mem_nil, or_false] at hv
    tauto
  have key := pr_decision_step (fun _ _ => GenResult.ok t) s k r t h1 h2 rfl
  rw [key]
  by_cases hy : containsYES t = true
  · simp only [hy, if_true]
    rcases hmem with h | h | h | h
    · rw [advance_stage_from_general _ (by simp [record_exchange, h]),
        advance_stage_from_general s h,
        gnq_stage_of_ne _ _ _ (by simp)]
      refine ⟨by simp, ?_⟩
      simp only [h]
      decide
    · rw [advance_stage_from_technical _ (by simp [record_exchange, h]),
        advance_stage_from_technical s h,
        gnq_stage_of_ne _ _ _ (by simp)]
      refine ⟨by simp, ?_⟩
      simp only [h]
      decide
    · rw [advance_stage_from_experience _ (by simp [record_exchange, h]),
        advance_stage_from_experience s h,
        gnq_stage_of_ne _ _ _ (by simp)]
      refine ⟨by simp, ?_⟩
      simp only [h]
      decide
    · rw [advance_stage_from_behavioral _ (by simp [record_exchange, h]),
        advance_stage_from_behavioral s h,
        gnq_stage_of_ne _ _ _ (by simp)]
      refine ⟨by simp, ?_⟩
      simp only [h]
      decide
  · simp only [hy, if_false]
    rw [gnq_stage_of_ne _ _ _ (by simpa [record_exchange] using h1)]
    simp [record_exchange]

/-- C1 witness: a stubbed "YES please advance" decision at a concrete
General-stage session. -/
theorem C1_witness :
    ((process_response (fun _ _ => GenResult.ok "YES please advance")
        generalSession 0 "fine").1.interview_stage =
      if containsYES "YES please advance" then
        (advance_stage generalSession).interview_stage
      else generalSession.interview_stage) ∧
    stageIdx (process_response (fun _ _ => GenResult.ok "YES please advance")
        generalSession 0 "fine").1.interview_stage =
      (if containsYES "YES please advance" then
        stageIdx generalSession.interview_stage + 1
       else stageIdx generalSession.interview_stage) :=
  C1_advance_iff_yes_substring "YES please advance" "fine" generalSession 0
    (by decide) (by decide) (by decide)

/-- C4: on a fresh session the first question is the scripted name prompt
with no external call (counter stays 0), and after answering "Alice" the
name is stored and the scripted role prompt is returned, still with no
external call. -/
theorem C4_fresh_session_scripted_intro (oracle : Oracle) :
    get_next_question oracle initialize_session 0 =
      ({ initialize_session with last_question := namePrompt }, 0,
        Except.ok namePrompt) ∧
    process_response oracle
        { initialize_session with last_question := namePrompt } 0 "Alice" =
      ({ initialize_session with
          candidate_name := some "Alice"
          last_question := rolePrompt "Alice"
          memory := [(namePrompt, "Alice")] }, 0,
        Except.ok (rolePrompt "Alice")) := by
  constructor <;> rfl

/-- C5: at the Introduction stage with a non-empty name and role already
set, `get_next_question` moves the stage to General and returns the
scripted welcome prompt interpolating them, without consuming the oracle
(counter unchanged). -/
theorem C5_intro_complete_transitions_to_general (oracle : Oracle)
    (s : Session) (k : Nat) (nm jp : String)
    (hstage : s.interview_stage = "introduction")
    (hname : s.candidate_name = some nm) (hnm : nm ≠ "")
    (hrole : s.job_position = some jp) (hjp : jp ≠ "") :
    get_next_question oracle s k =
      ({ s with
          interview_stage := "general_questions"
          last_question := welcomePrompt nm jp }, k,
        Except.ok (welcomePrompt nm jp)) := by
  simp [get_next_question, hstage, hname, hrole, truthy, hnm, hjp]

/-- C5 witness at a concrete completed-introduction session. -/
theorem C5_witness :
    get_next_question (fun _ _ => GenResult.ok "gen") introDoneSession 0 =
      ({ introDoneSession with
          interview_stage := "general_questions"
          last_question := welcomePrompt "Alice" "Engineer" }, 0,
        Except.ok (welcomePrompt "Alice" "Engineer")) :=
  C5_intro_complete_transitions_to_general _ introDoneSession 0 "Alice"
    "Engineer" rfl rfl (by decide) rfl (by decide)

/-- C6: at the General stage, when the external generation call fails,
`get_next_question` propagates the failure and returns the session
unchanged (stage and transcript exactly as before; the counter records
the attempted call). -/
theorem C6_failure_propagates_without_mutation (oracle : Oracle)
    (s : Session) (k : Nat)
    (hstage : s.interview_stage = "general_questions")
    (hfail : oracle k (LLMCall.question (build_request s)) = GenResult.fail) :
    get_next_question oracle s k = (s, k + 1, Except.error ()) := by
  simp [get_next_question, hstage, hfail]

/-- C6 witness at a concrete General-stage session with a failing stub. -/
theorem C6_witness :
    get_next_question (fun _ _ => GenResult.fail) generalSession 5 =
      (generalSession, 6, Except.error ()) :=
  C6_failure_propagates_without_mutation _ generalSession 5 rfl rfl

/-- C10: outside the Introduction stage `get_next_question` always sends
the oracle exactly `build_request`, whose fields render unset values with
fixed placeholder defaults ("Unknown", "the position", "No resume
information available."); building the request never fails. -/
theorem C10_request_placeholder_defaults (oracle : Oracle) (s : Session)
    (k : Nat) (h : s.interview_stage ≠ "introduction") :
    get_next_question oracle s k =
      (match oracle k (LLMCall.question (build_request s)) with
       | GenResult.ok t => ({ s with last_question := t }, k + 1, Except.ok t)
       | GenResult.fail => (s, k + 1, Except.error ())) ∧
    (truthy s.candidate_name = false → (build_request s).name = "Unknown") ∧
    (truthy s.job_position = false →
      (build_request s).job_position = "the position") ∧
    (s.resume_entities = none →
      (build_request s).resume_info = "No resume information available.") := by
  refine ⟨by simp [get_next_question, h], fun h1 => ?_, fun h2 => ?_, fun h3 => ?_⟩
  · simp [build_request, h1]
  · simp [build_request, h2]
  · simp [build_request, h3]

/-- C10 witness: a session at the Technical stage with all optional fields
unset renders every placeholder default. -/
theorem C10_witness :
    get_next_question (fun _ _ => GenResult.ok "Q")
        { initialize_session with interview_stage := "technical_questions" } 2 =
      ({ initialize_session with
          interview_stage := "technical_questions"
          last_question := "Q" }, 3, Except.ok "Q") ∧
    (build_request
        { initialize_session with
          interview_stage := "technical_questions" }).name = "Unknown" ∧
    (build_request
        { initialize_session with
          interview_stage := "technical_questions" }).job_position =
      "the position" ∧
    (build_request
        { initialize_session with
          interview_stage := "technical_questions" }).resume_info =
      "No resume information available." := by
  have h := C10_request_placeholder_defaults (fun _ _ => GenResult.ok "Q")
    { initialize_session with interview_stage := "technical_questions" } 2
    (by decide)
  exact ⟨h.1, h.2.1 rfl, h.2.2.1 rfl, h.2.2.2 rfl⟩

/-- C2: under any sequence of public operations without a reset, the
stage stays within the six fixed stages, each step moves it forward by at
most one position, and it never decreases. -/
theorem C2_stage_monotone_no_skip :
    (∀ (oracle : Oracle) (s : Session) (k : Nat) (op : Op), op ≠ Op.reset →
      validStage s.interview_stage →
      validStage (step oracle (s, k) op).1.interview_stage ∧
      stageIdx s.interview_stage ≤
        stageIdx (step oracle (s, k) op).1.interview_stage ∧
      stageIdx (step oracle (s, k) op).1.interview_stage ≤
        stageIdx s.interview_stage + 1) ∧
    (∀ (oracle : Oracle) (s : Session) (k : Nat) (ops : List Op),
      (∀ op ∈ ops, op ≠ Op.reset) → validStage s.interview_stage →
      validStage (run oracle (s, k) ops).1.interview_stage ∧
      stageIdx s.interview_stage ≤
        stageIdx (run oracle (s, k) ops).1.interview_stage) := by
  have hstep : ∀ (oracle : Oracle) (sk : Session × Nat) (op : Op),
      op ≠ Op.reset → validStage sk.1.interview_stage →
      validStage (step oracle sk op).1.interview_stage ∧
      stageIdx sk.1.interview_stage ≤
        stageIdx (step oracle sk op).1.interview_stage ∧
      stageIdx (step oracle sk op).1.interview_stage ≤
        stageIdx sk.1.interview_stage + 1 := by
    intro oracle sk op hop hv
    cases op with
    | nextQ => simpa [step, stepOut] using gnq_bounds oracle sk.1 sk.2 hv
    | procResp r => simpa [step, stepOut] using pr_bounds oracle sk.1 sk.2 r hv
    | advance =>
        rcases advance_stage_enum sk.1 hv with ⟨heq, _⟩ | ⟨_, hval, hidx⟩
        · simp only [step, stepOut, heq]
          exact ⟨hv, Nat.le_refl _, Nat.le_succ _⟩
        · simp only [step, stepOut]
          exact ⟨hval, by omega, by omega⟩
    | reset => exact absurd rfl hop
  refine ⟨fun oracle s k op hop hv => hstep oracle (s, k) op hop hv, ?_⟩
  intro oracle s k ops
  induction ops generalizing s k with
  | nil => exact fun _ hv => ⟨hv, Nat.le_refl _⟩
  | cons op ops ih =>
      intro hops hv
      have h1 := hstep oracle (s, k) op (hops op (List.mem_cons_self op ops)) hv
      have h2 := ih (step oracle (s, k) op).1 (step oracle (s, k) op).2
        (fun o ho => hops o (List.mem_cons_of_mem op ho)) h1.1
      refine ⟨?_, le_trans h1.2.1 ?_⟩
      · simpa [run, List.foldl_cons] using h2.1
      · simpa [run, List.foldl_cons] using h2.2

/-- C2 witness: one `nextQ` step at a concrete General-stage session. -/
theorem C2_witness :
    validStage (step (fun _ _ => GenResult.ok "YES") (generalSession, 0)
      Op.nextQ).1.interview_stage ∧
    stageIdx generalSession.interview_stage ≤
      stageIdx (step (fun _ _ => GenResult.ok "YES") (generalSession, 0)
        Op.nextQ).1.interview_stage ∧
    stageIdx (step (fun _ _ => GenResult.ok "YES") (generalSession, 0)
      Op.nextQ).1.interview_stage ≤
      stageIdx generalSession.interview_stage + 1 :=
  C2_stage_monotone_no_skip.1 (fun _ _ => GenResult.ok "YES") generalSession 0
    Op.nextQ (by decide) (by decide)


/-- C7: once both introduction fields are truthy-set, any reset-free
sequence of public operations keeps them set, never returns the stage to
Introduction once it has left it, and (for an oracle whose texts are not
the scripted prompts) never emits the scripted name or role prompt
again. -/
theorem C7_intro_never_revisited (oracle : Oracle) (s : Session) (k : Nat) (ops : List Op)
    (hhon : honest oracle) (hP : introDone s)
    (hnr : ∀ op ∈ ops, op ≠ Op.reset) :
    introDone (runOut oracle (s, k) ops).1.1 ∧
    (s.interview_stage ≠ "introduction" →
      (runOut oracle (s, k) ops).1.1.interview_stage ≠ "introduction") ∧
    ∀ q ∈ (runOut oracle (s, k) ops).2,
      q ≠ Except.ok namePrompt ∧ ∀ nm, q ≠ Except.ok (rolePrompt nm) := by
  induction ops generalizing s k with
  | nil => exact ⟨hP, fun h => h, by simp [runOut]⟩
  | cons op ops ih =>
      have h1 := stepOut_c7 oracle (s, k) op (hnr op (List.mem_cons_self op ops))
        hP hhon
      have h2 := ih (stepOut oracle (s, k) op).1.1 (stepOut oracle (s, k) op).1.2
        h1.1 (fun o ho => hnr o (List.mem_cons_of_mem op ho))
      refine ⟨?_, fun hni => ?_, ?_⟩
      · simpa [runOut] using h2.1
      · have := h2.2.1 (h1.2.1 hni)
        simpa [runOut] using this
      · intro q hq
        simp only [runOut, List.mem_append] at hq
        rcases hq with hq | hq
        · exact h1.2.2 q hq
        · exact h2.2.2 q (by simpa using hq)

/-- C7 witness: a concrete reset-free run at the General stage with an
honest stub oracle. -/
theorem C7_witness :
    introDone (runOut plainOracle (generalSession, 0)
        [Op.nextQ, Op.procResp "answer"]).1.1 ∧
    (generalSession.interview_stage ≠ "introduction" →
      (runOut plainOracle (generalSession, 0)
        [Op.nextQ, Op.procResp "answer"]).1.1.interview_stage ≠ "introduction") ∧
    ∀ q ∈ (runOut plainOracle (generalSession, 0)
        [Op.nextQ, Op.procResp "answer"]).2,
      q ≠ Except.ok namePrompt ∧ ∀ nm, q ≠ Except.ok (rolePrompt nm) :=
  C7_intro_never_revisited plainOracle generalSession 0
    [Op.nextQ, Op.procResp "answer"]
    (by
      intro m c t h
      simp only [plainOracle, GenResult.ok.injEq] at h
      subst h
      exact ⟨by decide, fun nm => ne_of_head _ _ (by rw [role_head]; decide)⟩)
    ⟨by decide, by decide⟩
    (by decide)


end HireGuru
